import Mathlib

/-!
Verification of the student-management application (src/app.py).

The application is a form-driven UI over a student collection.  The file
src/app.py holds the validators (validate_email, validate_age,
validate_grade), the add/update form handlers, and the search/filter
section; the record manager (services/manager.py) and the Student model
(models/student.py) are not part of the sources, so their operations are
modelled from the specification where a claim needs them.

Conventions of the embedding:
* Python strings are Lean `String`s; most functions work on `List Char`.
* `re.match(pat, s)` with a pattern of the form `^X$` succeeds iff `X`
  matches all of `s`, or all of `s` minus one final newline (the `$`
  anchor of Python `re` also matches just before a trailing newline).
  `dollarMatch` captures this rule for a given core matcher.
* `int(x)` on a string is modelled by `py_int_of_string` (surrounding
  whitespace, an optional sign, ASCII digits with single underscores
  between digits); failure stands for a raised ValueError.
-/

/-- ASCII whitespace as stripped by Python str.strip and int(). -/
def isPySpace (c : Char) : Bool :=
  c = ' ' || c = '\t' || c = '\n' || c = '\r' || c = '\x0b' || c = '\x0c'

/-- Python str.strip on a character list: drop whitespace on both ends. -/
def stripList (l : List Char) : List Char :=
  ((l.dropWhile isPySpace).reverse.dropWhile isPySpace).reverse

/-- Python str.strip. -/
def pyStrip (s : String) : String := String.mk (stripList s.toList)

/-- Python str.upper (ASCII letters; other characters unchanged). -/
def pyUpper (s : String) : String := String.mk (s.toList.map Char.toUpper)

/-- Python str.lower (ASCII letters; other characters unchanged). -/
def pyLower (s : String) : String := String.mk (s.toList.map Char.toLower)

/-- Characters of the class [A-Za-z0-9._%+-] from the email pattern. -/
def isLocalChar (c : Char) : Bool :=
  c.isAlpha || c.isDigit || c = '.' || c = '_' || c = '%' || c = '+' || c = '-'

/-- Characters of the class [A-Za-z0-9.-] from the email pattern. -/
def isDomainChar (c : Char) : Bool :=
  c.isAlpha || c.isDigit || c = '.' || c = '-'

/-- Characters of the class [1-9]. -/
def isDigit19 (c : Char) : Bool := '1' ≤ c && c ≤ '9'

/-- Matcher for the tail `[A-Za-z0-9.-]+\.[A-Za-z]\x7b2,\x7d` of the email
pattern.  The final segment is all letters, hence contains no dot, so a
successful match must split at the last dot of the input: reading the
input from the right, the letters before the first dot are the final
segment and what lies beyond the dot is the domain part. -/
def domainTld (r : List Char) : Bool :=
  let tRev := r.reverse.takeWhile (fun x => x != '.')
  let dRev := r.reverse.dropWhile (fun x => x != '.')
  !dRev.isEmpty && !dRev.tail.isEmpty && dRev.tail.all isDomainChar &&
    decide (2 ≤ tRev.length) && tRev.all Char.isAlpha

/-- Matcher for `[A-Za-z0-9._%+-]+@[A-Za-z0-9.-]+\.[A-Za-z]\x7b2,\x7d`
against a whole character list.  No character class of the pattern
contains the at sign, so a successful match must split at the first at
sign of the input. -/
def emailCore (c : List Char) : Bool :=
  let l := c.takeWhile (fun x => x != '@')
  let rest := c.dropWhile (fun x => x != '@')
  !l.isEmpty && l.all isLocalChar && !rest.isEmpty && domainTld rest.tail

/-- Python semantics of `re.match` for an `^X$` pattern: `X` matches the
whole input, or the whole input minus one final newline. -/
def dollarMatch (core : List Char → Bool) (c : List Char) : Bool :=
  core c || ((c.getLast? == some '\n') && core c.dropLast)

/-- src/app.py, StudentManagementUI.validate_email (lines 22 to 25):
re.match of `^[A-Za-z0-9._%+-]+@[A-Za-z0-9.-]+\.[A-Za-z]\x7b2,\x7d$`
against the input, tested for being a match object. -/
def validate_email (email : String) : Bool := dollarMatch emailCore email.toList

/-- Matcher for `[1-9][0-9]?[A-Z]` against a whole character list. -/
def gradeCore : List Char → Bool
  | [a, b] => isDigit19 a && b.isUpper
  | [a, b, c] => isDigit19 a && b.isDigit && c.isUpper
  | _ => false

/-- src/app.py, StudentManagementUI.validate_grade (lines 35 to 38):
re.match of `^[1-9][0-9]?[A-Z]$` against the upper-cased input. -/
def validate_grade (grade : String) : Bool :=
  dollarMatch gradeCore (grade.toList.map Char.toUpper)

/-- Does a character list match `digit (digit | underscore digit)*`?
This is the shape of the digit run accepted by Python int() after sign
and whitespace handling, continued by `digits_rest`. -/
def digits_rest : List Char → Bool
  | [] => true
  | '_' :: c :: rest => c.isDigit && digits_rest rest
  | c :: rest => c.isDigit && digits_rest rest

/-- A nonempty digit run with single underscores allowed between digits. -/
def digits_part : List Char → Bool
  | [] => false
  | c :: rest => c.isDigit && digits_rest rest

/-- Numeric value of a list of ASCII digits. -/
def nat_of_digits (l : List Char) : Nat :=
  l.foldl (fun acc c => 10 * acc + (c.toNat - 48)) 0

/-- Python int() applied to a string: strip surrounding whitespace, read
an optional sign, then a digit run with optional single underscores
between digits.  `none` stands for a raised ValueError. -/
def py_int_of_string (s : String) : Option Int :=
  match stripList s.toList with
  | '+' :: rest =>
      if digits_part rest then some (Int.ofNat (nat_of_digits (rest.filter (fun x => x ≠ '_')))) else none
  | '-' :: rest =>
      if digits_part rest then some (-(Int.ofNat (nat_of_digits (rest.filter (fun x => x ≠ '_'))))) else none
  | rest =>
      if digits_part rest then some (Int.ofNat (nat_of_digits (rest.filter (fun x => x ≠ '_')))) else none

/-- src/app.py, StudentManagementUI.validate_age (lines 27 to 33):
try int coercion, catching ValueError as an invalid result, then the
inclusive range check 5 to 100. -/
def validate_age (age : String) : Bool :=
  match py_int_of_string age with
  | some n => decide (5 ≤ n) && decide (n ≤ 100)
  | none => false

/-- The student record, per the data model of the specification and the
keyword construction in src/app.py lines 80 to 87. -/
structure Student where
  student_id : String
  name : String
  age : Int
  grade : String
  email : String
  performance : String
deriving Repr, DecidableEq

/-- Substring occurrence on character lists: the needle occurs
contiguously somewhere in the hay (Python `in` on strings). -/
def hasSubList (needle : List Char) : List Char → Bool
  | [] => needle.isEmpty
  | c :: rest => needle.isPrefixOf (c :: rest) || hasSubList needle rest

/-- The four options of the performance selectbox in both forms. -/
def performance_options : List String :=
  ["Excellent", "Good", "Average", "Needs Improvement"]

/-- Modelled from the spec: services/manager.py is not under src.  Per
the specification, search_students is a case-insensitive substring match
against name OR email; an empty query returns the full collection. -/
def search_students (store : List Student) (query : String) : List Student :=
  if query = "" then store
  else store.filter fun s =>
    hasSubList (pyLower query).toList (pyLower s.name).toList ||
    hasSubList (pyLower query).toList (pyLower s.email).toList

/-- Modelled from the spec: services/manager.py is not under src.  Per
the specification, filter_students returns the records of the collection
satisfying ALL supplied criteria: grade compared exactly on upper-cased
forms, inclusive age bounds, performance compared exactly; a criterion
left None is not applied. -/
def filter_students (store : List Student) (grade : Option String)
    (min_age max_age : Option Int) (performance : Option String) : List Student :=
  store.filter fun s =>
    (match grade with
     | none => true
     | some g => pyUpper s.grade == pyUpper g) &&
    (match min_age with
     | none => true
     | some m => decide (m ≤ s.age)) &&
    (match max_age with
     | none => true
     | some m => decide (s.age ≤ m)) &&
    (match performance with
     | none => true
     | some p => s.performance == p)

/-- The dict update_data built by the update handler in src/app.py lines
148 to 154: it has exactly the five keys name, age, grade, email and
performance, and no student_id key. -/
structure UpdateData where
  name : String
  age : Int
  grade : String
  email : String
  performance : String
deriving Repr, DecidableEq

/-- Modelled from the spec: services/manager.py is not under src.  Per
the specification, update_student fails if the id is absent and
otherwise overwrites the supplied fields in place, leaving student_id
itself untouched.  The boolean is the success signal. -/
def update_student (store : List Student) (sid : String) (fields : UpdateData) :
    Bool × List Student :=
  if store.any (fun s => s.student_id == sid) then
    (true, store.map fun s =>
      if s.student_id == sid then
        { student_id := s.student_id, name := fields.name, age := fields.age,
          grade := fields.grade, email := fields.email,
          performance := fields.performance }
      else s)
  else (false, store)

/-- src/app.py lines 61 to 72 (and identically lines 132 to 142): the
error list collected on a form submission.  The age value comes from
st.number_input, so it is numeric and int() on it is the identity and
never raises; validate_age on it reduces to the range check. -/
def validate_age_num (age : Int) : Bool := decide (5 ≤ age) && decide (age ≤ 100)

def name_required_msg : String := "Name is required"

def age_error_msg : String := "Age must be between 5 and 100"

def email_error_msg : String := "Valid email is required"

def grade_error_msg : String := "Grade must be in format like \x2710A\x27, \x2711B\x27"

/-- The validation block of both form handlers: four independent checks,
each appending its own message, with no early exit. -/
def collect_errors (name : String) (age : Int) (email grade : String) : List String :=
  (if pyStrip name = "" then [name_required_msg] else []) ++
  (if validate_age_num age = false then [age_error_msg] else []) ++
  (if validate_email email = false then [email_error_msg] else []) ++
  (if validate_grade grade = false then [grade_error_msg] else [])

/-- src/app.py lines 61 to 92, the submission branch of the add form:
when the error list is empty, a Student is constructed from the stripped
name, the coerced age, the upper-cased grade, the stripped email and the
selected performance; otherwise no record is constructed.  The
student_id argument stands for the value of generate_student_id, which
lives in the manager and is not constrained by the form. -/
def add_student_form (student_id name : String) (age : Int)
    (email grade performance : String) : Option Student :=
  if collect_errors name age email grade = [] then
    some { student_id := student_id, name := pyStrip name, age := age,
           grade := pyUpper grade, email := pyStrip email,
           performance := performance }
  else none

/-- src/app.py lines 132 to 159, the submission branch of the update
form: when the error list is empty, update_student is called with the
id of the selected student and exactly the five editable fields. -/
def show_update_student_form (store : List Student) (selected : Student)
    (new_name : String) (new_age : Int) (new_email new_grade new_performance : String) :
    Bool × List Student :=
  if collect_errors new_name new_age new_email new_grade = [] then
    update_student store selected.student_id
      { name := pyStrip new_name, age := new_age, grade := pyUpper new_grade,
        email := pyStrip new_email, performance := new_performance }
  else (false, store)

/-- src/app.py lines 188 to 228, the search and filter section: the
collection is fetched, a nonempty search query replaces it by the
search results, and then filter_students is called on the manager,
whose collection is the full store, overwriting the variable that held
the search results. -/
def show_search_filter_section (store : List Student)
    (search_query performance_filter grade_filter : String)
    (min_age max_age : Int) : List Student :=
  let filtered_students := store
  let filtered_students :=
    if search_query ≠ "" then search_students store search_query else filtered_students
  let performance_val :=
    if performance_filter ≠ "All" then some performance_filter else none
  let grade_val :=
    if pyStrip grade_filter ≠ "" then some (pyUpper grade_filter) else none
  filter_students store grade_val (some min_age) (some max_age) performance_val

/-- Declarative reading of the email pattern
`[A-Za-z0-9._%+-]+@[A-Za-z0-9.-]+\.[A-Za-z]\x7b2,\x7d` on a whole
character list: a decomposition into a nonempty local part, the at
sign, a nonempty domain part, a dot, and a final segment of at least
two letters. -/
def EmailShape (c : List Char) : Prop :=
  ∃ l d t, c = l ++ '@' :: (d ++ '.' :: t) ∧
    l ≠ [] ∧ (∀ x ∈ l, isLocalChar x = true) ∧
    d ≠ [] ∧ (∀ x ∈ d, isDomainChar x = true) ∧
    2 ≤ t.length ∧ (∀ x ∈ t, x.isAlpha = true)

/-- Declarative reading of the grade pattern `[1-9][0-9]?[A-Z]` on a
whole character list: a nonzero digit, an optional digit, and one
uppercase letter. -/
def GradeShape (c : List Char) : Prop :=
  (∃ a b, c = [a, b] ∧ isDigit19 a = true ∧ b.isUpper = true) ∨
  (∃ a b d, c = [a, b, d] ∧ isDigit19 a = true ∧ b.isDigit = true ∧ d.isUpper = true)

/-- Declarative reading of a full `^X$` Python regex match: the shape
holds of the whole input or of the input minus one final newline. -/
def MatchesDollar (Shape : List Char → Prop) (c : List Char) : Prop :=
  Shape c ∨ ∃ r, c = r ++ ['\n'] ∧ Shape r

/-- The exception a Python computation of this program can raise. -/
inductive PyExc where
  | valueError
deriving Repr, DecidableEq

/-- Python int() on a string as a computation that can raise: the only
failure of int() on a str value is a ValueError. -/
def int_of_string_exc (s : String) : Except PyExc Int :=
  match py_int_of_string s with
  | some n => Except.ok n
  | none => Except.error PyExc.valueError

/-- The body of validate_age with its exception flow: the try block
coerces and range-checks; the except clause catches exactly ValueError
and yields false. -/
def validate_age_exc (s : String) : Except PyExc Bool :=
  match int_of_string_exc s with
  | Except.ok n => Except.ok (decide (5 ≤ n) && decide (n ≤ 100))
  | Except.error PyExc.valueError => Except.ok false

/-- The body of validate_email with its exception flow: re.match on a
string raises nothing. -/
def validate_email_exc (s : String) : Except PyExc Bool :=
  Except.ok (validate_email s)

/-- The body of validate_grade with its exception flow: str.upper and
re.match on a string raise nothing. -/
def validate_grade_exc (s : String) : Except PyExc Bool :=
  Except.ok (validate_grade s)

/-- Declarative reading of the email pattern tail
`[A-Za-z0-9.-]+\.[A-Za-z]\x7b2,\x7d` on a whole character list. -/
def DomainTldShape (c : List Char) : Prop :=
  ∃ d t, c = d ++ '.' :: t ∧ d ≠ [] ∧ (∀ x ∈ d, isDomainChar x = true) ∧
    2 ≤ t.length ∧ (∀ x ∈ t, x.isAlpha = true)

theorem takeWhile_append_stop {p : Char → Bool} :
    ∀ (l : List Char) (y : Char) (r : List Char),
      (∀ x ∈ l, p x = true) → p y = false → ((l ++ y :: r).takeWhile p) = l := by
  intro l y r hl hy
  induction l with
  | nil => simp [List.takeWhile_cons, hy]
  | cons a as ih =>
      have ha : p a = true := hl a (by simp)
      have has : ∀ x ∈ as, p x = true := fun x hx => hl x (by simp [hx])
      simp [List.takeWhile_cons, ha, ih has]

theorem dropWhile_append_stop {p : Char → Bool} :
    ∀ (l : List Char) (y : Char) (r : List Char),
      (∀ x ∈ l, p x = true) → p y = false → ((l ++ y :: r).dropWhile p) = y :: r := by
  intro l y r hl hy
  induction l with
  | nil => simp [List.dropWhile_cons, hy]
  | cons a as ih =>
      have ha : p a = true := hl a (by simp)
      have has : ∀ x ∈ as, p x = true := fun x hx => hl x (by simp [hx])
      simp [List.dropWhile_cons, ha, ih has]

theorem head_dropWhile_false {p : Char → Bool} :
    ∀ (c : List Char) (y : Char) (ys : List Char),
      c.dropWhile p = y :: ys → p y = false := by
  intro c
  induction c with
  | nil => intro y ys h; simp at h
  | cons a as ih =>
      intro y ys h
      rw [List.dropWhile_cons] at h
      by_cases hp : p a = true
      · rw [if_pos hp] at h; exact ih y ys h
      · rw [if_neg hp] at h
        cases h
        simpa using hp

theorem concat_of_getLast?_eq {c : List Char} {a : Char}
    (h : c.getLast? = some a) : c = c.dropLast ++ [a] := by
  induction c using List.reverseRecOn with
  | nil => simp at h
  | append_singleton r b _ =>
      rw [List.getLast?_concat] at h
      cases h
      rw [List.dropLast_concat]

theorem alpha_bne_dot {x : Char} (h : x.isAlpha = true) : (x != '.') = true := by
  rcases eq_or_ne x '.' with rfl | hx
  · exact absurd h (by decide)
  · simpa using hx

theorem local_bne_at {x : Char} (h : isLocalChar x = true) : (x != '@') = true := by
  rcases eq_or_ne x '@' with rfl | hx
  · exact absurd h (by decide)
  · simpa using hx

theorem domainTld_iff (r : List Char) : domainTld r = true ↔ DomainTldShape r := by
  constructor
  · intro h
    unfold domainTld at h
    simp only [Bool.and_eq_true, Bool.not_eq_true', List.isEmpty_eq_false,
      List.all_eq_true, decide_eq_true_eq] at h
    obtain ⟨⟨⟨⟨hne, htne⟩, hdall⟩, htlen⟩, htall⟩ := h
    obtain ⟨y, ys, hd⟩ := List.exists_cons_of_ne_nil hne
    have hy : y = '.' := by simpa using head_dropWhile_false _ _ _ hd
    subst hy
    have hsplit : r.reverse = r.reverse.takeWhile (fun x => x != '.') ++ '.' :: ys := by
      conv_lhs => rw [← List.takeWhile_append_dropWhile (p := fun x => x != '.') (l := r.reverse)]
      rw [hd]
    have hr : r = ys.reverse ++ '.' :: (r.reverse.takeWhile (fun x => x != '.')).reverse := by
      have h2 := congrArg List.reverse hsplit
      simpa [List.reverse_append] using h2
    rw [hd] at htne hdall
    simp only [List.tail_cons] at htne hdall
    refine ⟨ys.reverse, (r.reverse.takeWhile (fun x => x != '.')).reverse, hr, ?_, ?_, ?_, ?_⟩
    · simpa using htne
    · intro x hx; exact hdall x (by simpa using hx)
    · simpa using htlen
    · intro x hx; exact htall x (by simpa using hx)
  · rintro ⟨d, t, rfl, hd, hdall, htlen, htall⟩
    have hrev : (d ++ '.' :: t).reverse = t.reverse ++ '.' :: d.reverse := by
      simp [List.reverse_append]
    have htk : ((d ++ '.' :: t).reverse.takeWhile (fun x => x != '.')) = t.reverse := by
      rw [hrev]
      exact takeWhile_append_stop _ _ _
        (fun x hx => alpha_bne_dot (htall x (by simpa using hx))) (by decide)
    have hdk : ((d ++ '.' :: t).reverse.dropWhile (fun x => x != '.')) = '.' :: d.reverse := by
      rw [hrev]
      exact dropWhile_append_stop _ _ _
        (fun x hx => alpha_bne_dot (htall x (by simpa using hx))) (by decide)
    unfold domainTld
    rw [htk, hdk]
    simp only [List.isEmpty_cons, Bool.not_false, List.tail_cons, Bool.true_and,
      Bool.and_eq_true, Bool.not_eq_true', List.isEmpty_eq_false, List.all_eq_true,
      decide_eq_true_eq]
    refine ⟨⟨⟨by simpa using hd, fun x hx => hdall x (by simpa using hx)⟩, by simpa using htlen⟩,
      fun x hx => htall x (by simpa using hx)⟩

theorem emailCore_iff (c : List Char) : emailCore c = true ↔ EmailShape c := by
  constructor
  · intro h
    unfold emailCore at h
    simp only [Bool.and_eq_true, Bool.not_eq_true', List.isEmpty_eq_false,
      List.all_eq_true] at h
    obtain ⟨⟨⟨hlne, hlall⟩, hrne⟩, htld⟩ := h
    obtain ⟨y, ys, hd⟩ := List.exists_cons_of_ne_nil hrne
    have hy : y = '@' := by simpa using head_dropWhile_false _ _ _ hd
    subst hy
    have hsplit : c = c.takeWhile (fun x => x != '@') ++ '@' :: ys := by
      conv_lhs => rw [← List.takeWhile_append_dropWhile (p := fun x => x != '@') (l := c)]
      rw [hd]
    rw [hd] at htld
    simp only [List.tail_cons] at htld
    obtain ⟨d, t, hys, hdne, hdall, htlen, htall⟩ := (domainTld_iff ys).mp htld
    exact ⟨c.takeWhile (fun x => x != '@'), d, t, by rw [← hys]; exact hsplit, hlne, hlall,
      hdne, hdall, htlen, htall⟩
  · rintro ⟨l, d, t, rfl, hlne, hlall, hdne, hdall, htlen, htall⟩
    have htk : ((l ++ '@' :: (d ++ '.' :: t)).takeWhile (fun x => x != '@')) = l :=
      takeWhile_append_stop _ _ _ (fun x hx => local_bne_at (hlall x hx)) (by decide)
    have hdk : ((l ++ '@' :: (d ++ '.' :: t)).dropWhile (fun x => x != '@')) =
        '@' :: (d ++ '.' :: t) :=
      dropWhile_append_stop _ _ _ (fun x hx => local_bne_at (hlall x hx)) (by decide)
    unfold emailCore
    rw [htk, hdk]
    simp only [List.isEmpty_cons, Bool.not_false, List.tail_cons, Bool.and_true,
      Bool.and_eq_true, Bool.not_eq_true', List.isEmpty_eq_false, List.all_eq_true]
    exact ⟨⟨hlne, hlall⟩, (domainTld_iff _).mpr ⟨d, t, rfl, hdne, hdall, htlen, htall⟩⟩

theorem gradeCore_iff (c : List Char) : gradeCore c = true ↔ GradeShape c := by
  constructor
  · intro h
    rcases c with _ | ⟨a, _ | ⟨b, _ | ⟨d, _ | ⟨e, rest⟩⟩⟩⟩
    · exact absurd h (by simp [gradeCore])
    · exact absurd h (by simp [gradeCore])
    · rw [show gradeCore [a, b] = (isDigit19 a && b.isUpper) from rfl,
        Bool.and_eq_true] at h
      exact Or.inl ⟨a, b, rfl, h.1, h.2⟩
    · rw [show gradeCore [a, b, d] = (isDigit19 a && b.isDigit && d.isUpper) from rfl] at h
      simp only [Bool.and_eq_true] at h
      exact Or.inr ⟨a, b, d, rfl, h.1.1, h.1.2, h.2⟩
    · exact absurd h (by simp [gradeCore])
  · intro h
    rcases h with ⟨a, b, rfl, h1, h2⟩ | ⟨a, b, d, rfl, h1, h2, h3⟩
    · simp [gradeCore, h1, h2]
    · simp [gradeCore, h1, h2, h3]

theorem dollarMatch_iff {core : List Char → Bool} {Shape : List Char → Prop}
    (hcore : ∀ c, core c = true ↔ Shape c) (c : List Char) :
    dollarMatch core c = true ↔ MatchesDollar Shape c := by
  unfold dollarMatch MatchesDollar
  rw [Bool.or_eq_true, Bool.and_eq_true]
  constructor
  · rintro (h | ⟨hlast, hcr⟩)
    · exact Or.inl ((hcore c).mp h)
    · have ha : c.getLast? = some '\n' := by simpa using hlast
      exact Or.inr ⟨c.dropLast, concat_of_getLast?_eq ha, (hcore _).mp hcr⟩
  · rintro (h | ⟨r, rfl, hr⟩)
    · exact Or.inl ((hcore c).mpr h)
    · refine Or.inr ⟨?_, ?_⟩
      · simp [List.getLast?_concat]
      · rw [List.dropLast_concat]; exact (hcore r).mpr hr

theorem if_singleton_eq_nil {c : Prop} [Decidable c] {m : String}
    (h : (if c then [m] else []) = []) : ¬c := by
  intro hc
  rw [if_pos hc] at h
  exact absurd h (by simp)

theorem char_toNat_ofNat_lt {n : Nat} (h : n < 55296) : (Char.ofNat n).toNat = n := by
  rw [Char.ofNat, dif_pos (Or.inl h)]
  rfl

theorem char_toUpper_eq (c : Char) :
    c.toUpper = if c.toNat ≥ 97 ∧ c.toNat ≤ 122 then Char.ofNat (c.toNat - 32) else c := rfl

theorem char_toLower_eq (c : Char) :
    c.toLower = if c.toNat ≥ 65 ∧ c.toNat ≤ 90 then Char.ofNat (c.toNat + 32) else c := rfl

theorem char_toNat_lt (c : Char) : c.toNat < 1114112 := by
  rcases c.valid with h | ⟨_, h⟩
  · exact Nat.lt_trans h (by decide)
  · exact h

theorem char_toUpper_toUpper (c : Char) : c.toUpper.toUpper = c.toUpper := by
  rw [char_toUpper_eq c]
  by_cases h : c.toNat ≥ 97 ∧ c.toNat ≤ 122
  · rw [if_pos h, char_toUpper_eq]
    have ht : (Char.ofNat (c.toNat - 32)).toNat = c.toNat - 32 :=
      char_toNat_ofNat_lt (by omega)
    rw [ht, if_neg (by omega)]
  · rw [if_neg h, char_toUpper_eq, if_neg h]

theorem char_toUpper_toLower (c : Char) : c.toLower.toUpper = c.toUpper := by
  rw [char_toLower_eq c]
  by_cases h : c.toNat ≥ 65 ∧ c.toNat ≤ 90
  · rw [if_pos h, char_toUpper_eq, char_toUpper_eq c]
    have ht : (Char.ofNat (c.toNat + 32)).toNat = c.toNat + 32 :=
      char_toNat_ofNat_lt (by omega)
    rw [ht, if_pos (by omega), if_neg (by omega)]
    have h32 : c.toNat + 32 - 32 = c.toNat := by omega
    rw [h32, Char.ofNat_toNat]
  · rw [if_neg h]

theorem map_toUpper_toUpper (l : List Char) :
    (l.map Char.toUpper).map Char.toUpper = l.map Char.toUpper := by
  rw [List.map_map]
  exact List.map_congr_left fun a _ => char_toUpper_toUpper a

theorem map_toUpper_toLower (l : List Char) :
    (l.map Char.toLower).map Char.toUpper = l.map Char.toUpper := by
  rw [List.map_map]
  exact List.map_congr_left fun a _ => char_toUpper_toLower a

theorem validate_grade_pyUpper (g : String) :
    validate_grade (pyUpper g) = validate_grade g := by
  unfold validate_grade pyUpper
  exact congrArg (fun l => dollarMatch gradeCore l) (map_toUpper_toUpper g.toList)

theorem validate_grade_pyLower (g : String) :
    validate_grade (pyLower g) = validate_grade g := by
  unfold validate_grade pyLower
  exact congrArg (fun l => dollarMatch gradeCore l) (map_toUpper_toLower g.toList)

theorem local_not_space {x : Char} (h : isLocalChar x = true) : isPySpace x = false := by
  by_cases hsp : isPySpace x = true
  · simp only [isPySpace, Bool.or_eq_true, decide_eq_true_eq] at hsp
    rcases hsp with ((((rfl | rfl) | rfl) | rfl) | rfl) | rfl <;> exact absurd h (by decide)
  · simpa using hsp

theorem alpha_not_space {x : Char} (h : x.isAlpha = true) : isPySpace x = false := by
  by_cases hsp : isPySpace x = true
  · simp only [isPySpace, Bool.or_eq_true, decide_eq_true_eq] at hsp
    rcases hsp with ((((rfl | rfl) | rfl) | rfl) | rfl) | rfl <;> exact absurd h (by decide)
  · simpa using hsp

theorem dropWhile_eq_self_head {p : Char → Bool} (c : List Char)
    (h : ∀ x xs, c = x :: xs → p x = false) : c.dropWhile p = c := by
  cases c with
  | nil => rfl
  | cons x xs => rw [List.dropWhile_cons, if_neg (by simp [h x xs rfl])]

theorem stripList_eq_self {c : List Char}
    (hd : ∀ x xs, c = x :: xs → isPySpace x = false)
    (hl : ∀ x xs, c.reverse = x :: xs → isPySpace x = false) : stripList c = c := by
  unfold stripList
  rw [dropWhile_eq_self_head c hd, dropWhile_eq_self_head c.reverse hl, List.reverse_reverse]

theorem emailShape_head_not_space {c : List Char} (h : EmailShape c) :
    ∀ x xs, c = x :: xs → isPySpace x = false := by
  obtain ⟨l, d, t, rfl, hlne, hlall, _, _, _, _⟩ := h
  intro x xs hx
  obtain ⟨y, ys, rfl⟩ := List.exists_cons_of_ne_nil hlne
  rw [List.cons_append] at hx
  injection hx with h1 _
  exact h1 ▸ local_not_space (hlall y (by simp))

theorem emailShape_last_not_space {c : List Char} (h : EmailShape c) :
    ∀ x xs, c.reverse = x :: xs → isPySpace x = false := by
  obtain ⟨l, d, t, rfl, _, _, _, _, htlen, htall⟩ := h
  intro x xs hx
  rcases List.eq_nil_or_concat t with rfl | ⟨ts, a, rfl⟩
  · simp at htlen
  · simp only [List.concat_eq_append] at hx htlen htall
    have hc : l ++ '@' :: (d ++ '.' :: (ts ++ [a])) =
        (l ++ '@' :: (d ++ '.' :: ts)) ++ [a] := by simp
    have hlast : (l ++ '@' :: (d ++ '.' :: (ts ++ [a]))).getLast? = some a := by
      rw [hc, List.getLast?_concat]
    rw [List.getLast?_eq_head?_reverse, hx] at hlast
    simp only [List.head?_cons, Option.some.injEq] at hlast
    subst hlast
    exact alpha_not_space (htall x (by simp))

theorem emailShape_strip {c : List Char} (h : EmailShape c) : stripList c = c :=
  stripList_eq_self (emailShape_head_not_space h) (emailShape_last_not_space h)

theorem email_strip_valid {e : String} (h : validate_email e = true) :
    emailCore (stripList e.toList) = true := by
  have h2 := (dollarMatch_iff emailCore_iff e.toList).mp h
  rcases h2 with hs | ⟨r, hr, hs⟩
  · rw [emailShape_strip hs]
    exact (emailCore_iff _).mpr hs
  · rw [hr]
    have hstrip : stripList (r ++ ['\n']) = r := by
      unfold stripList
      have h1 : (r ++ ['\n']).dropWhile isPySpace = r ++ ['\n'] := by
        apply dropWhile_eq_self_head
        intro x xs hx
        obtain ⟨l2, d2, t2, hre, hlne, hlall, _, _, _, _⟩ := hs
        obtain ⟨y, ys, rfl⟩ := List.exists_cons_of_ne_nil hlne
        rw [hre] at hx
        rw [List.cons_append, List.cons_append] at hx
        injection hx with hxy _
        exact hxy ▸ local_not_space (hlall y (by simp))
      rw [h1]
      have h2 : (r ++ ['\n']).reverse = '\n' :: r.reverse := by simp
      rw [h2, List.dropWhile_cons, if_pos (by decide)]
      rw [dropWhile_eq_self_head r.reverse (emailShape_last_not_space hs), List.reverse_reverse]
    rw [hstrip]
    exact (emailCore_iff _).mpr hs

/-- C2: validate_age is true exactly on the inputs that int() coerces to
a value between 5 and 100 inclusive, and whenever the coercion fails it
returns false instead of propagating the error. -/
theorem validate_age_correct :
    (∀ a : String, validate_age a = true ↔
      ∃ n, py_int_of_string a = some n ∧ 5 ≤ n ∧ n ≤ 100)
    ∧ ∀ a : String, py_int_of_string a = none → validate_age a = false := by
  constructor
  · intro a
    unfold validate_age
    cases h : py_int_of_string a with
    | none => simp
    | some n => simp [Bool.and_eq_true, decide_eq_true_eq]
  · intro a h
    unfold validate_age
    rw [h]

/-- Witness for C2 at a concrete non-coercible input. -/
theorem validate_age_correct_witness : validate_age "abc" = false :=
  validate_age_correct.2 "abc" (by decide)

/-- C3: validate_email is true exactly on the strings matching the email
regular expression, under the semantics of Python re.match where the
dollar anchor also accepts one final newline, and no other check is
performed; the examples of the spec hold. -/
theorem validate_email_correct :
    (∀ v : String, validate_email v = true ↔ MatchesDollar EmailShape v.toList)
    ∧ validate_email "student@example.com" = true
    ∧ validate_email "bad-email" = false
    ∧ validate_email "a@b" = false :=
  ⟨fun v => dollarMatch_iff emailCore_iff v.toList, by decide, by decide, by decide⟩

/-- C4: validate_grade is true exactly when the upper-cased input
matches the grade pattern (one or two digits without a leading zero and
one uppercase letter), under the semantics of Python re.match where the
dollar anchor also accepts one final newline; the examples of the claim
hold. -/
theorem validate_grade_correct :
    (∀ g : String, validate_grade g = true ↔
      MatchesDollar GradeShape (g.toList.map Char.toUpper))
    ∧ validate_grade "10a" = true
    ∧ validate_grade "0A" = false
    ∧ validate_grade "100A" = false
    ∧ validate_grade "A10" = false :=
  ⟨fun g => dollarMatch_iff gradeCore_iff (g.toList.map Char.toUpper),
    by decide, by decide, by decide, by decide⟩

/-- C5: the validation block of a form submission does not stop at the
first failure: for every combination of the four field inputs, the
error list holds exactly one message per invalid field, and its length
is the number of invalid fields. -/
theorem errors_reported_per_field :
    ∀ (name : String) (age : Int) (email grade : String),
      ((collect_errors name age email grade).count name_required_msg
          = if pyStrip name = "" then 1 else 0)
      ∧ ((collect_errors name age email grade).count age_error_msg
          = if validate_age_num age = false then 1 else 0)
      ∧ ((collect_errors name age email grade).count email_error_msg
          = if validate_email email = false then 1 else 0)
      ∧ ((collect_errors name age email grade).count grade_error_msg
          = if validate_grade grade = false then 1 else 0)
      ∧ ((collect_errors name age email grade).length
          = (if pyStrip name = "" then 1 else 0)
            + (if validate_age_num age = false then 1 else 0)
            + (if validate_email email = false then 1 else 0)
            + (if validate_grade grade = false then 1 else 0)) := by
  intro name age email grade
  unfold collect_errors
  split_ifs <;> decide

/-- C6: a Student constructed by the add path is fully valid: trimmed
nonempty name, age within 5 and 100, upper-cased grade accepted by the
grade validator, trimmed email matching the email pattern even without
the newline allowance, and a performance from the selectbox options. -/
theorem add_constructs_only_valid_students :
    ∀ (sid name : String) (age : Int) (email grade performance : String) (s : Student),
      performance ∈ performance_options →
      add_student_form sid name age email grade performance = some s →
      s.name = pyStrip name ∧ s.name ≠ ""
      ∧ 5 ≤ s.age ∧ s.age ≤ 100
      ∧ s.grade = pyUpper grade ∧ validate_grade s.grade = true
      ∧ s.email = pyStrip email ∧ emailCore s.email.toList = true
      ∧ s.performance ∈ performance_options := by
  intro sid name age email grade performance s hperf hform
  unfold add_student_form at hform
  by_cases h : collect_errors name age email grade = []
  · rw [if_pos h] at hform
    injection hform with hs
    subst hs
    unfold collect_errors at h
    obtain ⟨h, hd⟩ := List.append_eq_nil.mp h
    obtain ⟨h, hc⟩ := List.append_eq_nil.mp h
    obtain ⟨ha, hb⟩ := List.append_eq_nil.mp h
    have h1 : ¬(pyStrip name = "") := if_singleton_eq_nil ha
    have h2t : validate_age_num age = true := by
      have := if_singleton_eq_nil hb
      simpa using this
    have h3t : validate_email email = true := by
      have := if_singleton_eq_nil hc
      simpa using this
    have h4t : validate_grade grade = true := by
      have := if_singleton_eq_nil hd
      simpa using this
    have hage : 5 ≤ age ∧ age ≤ 100 := by
      unfold validate_age_num at h2t
      simpa using h2t
    refine ⟨rfl, h1, hage.1, hage.2, rfl, ?_, rfl, ?_, hperf⟩
    · rw [show (Student.mk sid (pyStrip name) age (pyUpper grade) (pyStrip email)
        performance).grade = pyUpper grade from rfl, validate_grade_pyUpper]
      exact h4t
    · exact email_strip_valid h3t
  · rw [if_neg h] at hform
    simp at hform

/-- Witness for C6 at a concrete valid submission. -/
theorem add_constructs_only_valid_students_witness :
    (Student.mk "S1" "Alice" 18 "10A" "alice@example.com" "Good").name = pyStrip "Alice"
    ∧ (Student.mk "S1" "Alice" 18 "10A" "alice@example.com" "Good").name ≠ ""
    ∧ (5 : Int) ≤ (Student.mk "S1" "Alice" 18 "10A" "alice@example.com" "Good").age
    ∧ (Student.mk "S1" "Alice" 18 "10A" "alice@example.com" "Good").age ≤ 100
    ∧ (Student.mk "S1" "Alice" 18 "10A" "alice@example.com" "Good").grade = pyUpper "10a"
    ∧ validate_grade (Student.mk "S1" "Alice" 18 "10A" "alice@example.com" "Good").grade = true
    ∧ (Student.mk "S1" "Alice" 18 "10A" "alice@example.com" "Good").email = pyStrip "alice@example.com"
    ∧ emailCore (Student.mk "S1" "Alice" 18 "10A" "alice@example.com" "Good").email.toList = true
    ∧ (Student.mk "S1" "Alice" 18 "10A" "alice@example.com" "Good").performance ∈ performance_options :=
  add_constructs_only_valid_students "S1" "Alice" 18 "alice@example.com" "10a" "Good"
    (Student.mk "S1" "Alice" 18 "10A" "alice@example.com" "Good") (by decide) (by decide)

/-- C7: the update path hands update_student exactly the five editable
fields and no student_id, so the identifiers of the stored records are
unchanged by every update submission. -/
theorem update_preserves_student_id :
    ∀ (store : List Student) (selected : Student) (new_name : String) (new_age : Int)
      (new_email new_grade new_performance : String),
      ((show_update_student_form store selected new_name new_age new_email new_grade
          new_performance).2).map Student.student_id = store.map Student.student_id := by
  intro store selected new_name new_age new_email new_grade new_performance
  unfold show_update_student_form
  split_ifs with h
  · unfold update_student
    split_ifs with h2
    · show (store.map _).map Student.student_id = store.map Student.student_id
      rw [List.map_map]
      apply List.map_congr_left
      intro s _
      by_cases hs : s.student_id == selected.student_id
      · simp [Function.comp, hs]
      · simp [Function.comp, hs]
    · rfl
  · rfl

/-- C8: on every string input, each validator terminates with a boolean
and raises no exception: the exception-flow bodies agree with the pure
results, the ValueError of a failed coercion being caught inside
validate_age. -/
theorem validators_total :
    ∀ s : String,
      validate_email_exc s = Except.ok (validate_email s)
      ∧ validate_age_exc s = Except.ok (validate_age s)
      ∧ validate_grade_exc s = Except.ok (validate_grade s) := by
  intro s
  refine ⟨rfl, ?_, rfl⟩
  unfold validate_age_exc int_of_string_exc validate_age
  cases py_int_of_string s <;> rfl

/-- C9: validate_grade is invariant under changing the letter case of
its input. -/
theorem validate_grade_case_insensitive :
    ∀ g : String, validate_grade g = validate_grade (pyUpper g)
      ∧ validate_grade g = validate_grade (pyLower g) := by
  intro g
  exact ⟨(validate_grade_pyUpper g).symm, (validate_grade_pyLower g).symm⟩

/-- C10: the dollar anchor is not a strict end-of-string anchor: a valid
email and a valid grade each followed by one newline are accepted, so
acceptance is not limited to strings ending at the last letter of the
pattern. -/
theorem trailing_newline_accepted :
    validate_email "student@example.com\n" = true
    ∧ validate_grade "10A\n" = true := by
  constructor <;> decide

/-- C1: evaluation of the search and filter section at a store holding
one student whose fields match the structured filters but not the
search query: the section returns that student although the search
results are empty, because filter_students is applied to the full
collection and the search results are discarded. -/
theorem search_filter_ignores_search :
    show_search_filter_section
        [Student.mk "S001" "Alice" 20 "5A" "alice@example.com" "Good"]
        "bob" "All" "" 5 100
      = [Student.mk "S001" "Alice" 20 "5A" "alice@example.com" "Good"]
    ∧ search_students
        [Student.mk "S001" "Alice" 20 "5A" "alice@example.com" "Good"] "bob" = [] := by
  constructor <;> decide

